import Mathlib

/-!
Verification development for the FundEd marketing chatbot backend
(`backend/rag.py`, `backend/router.py`, `backend/llm.py`,
`backend/dispatchers/{en,de,ar}.py`, `backend/config.py`).

Python strings are modelled as `List Char` (one element per code point,
matching Python's indexing/slicing semantics).  External services are
modelled as oracles carried in a `World`/`Store` record: the OpenAI
gateway's `count_tokens` is an arbitrary function `tok : Text → Nat`
(tiktoken is an external library), chat completions are an oracle
`chatResp`, and the Chroma vector store is a record of its observable
answers.  Floating-point distances returned by the vector store are
modelled as rationals.
-/

set_option maxRecDepth 100000

namespace FundedAI

/-- Python `str` modelled as a list of code points. -/
abbrev Text := List Char

/-- Python's notion of whitespace for `str.strip` (modelled by
`Char.isWhitespace`; all inputs used in concrete theorems only involve
the space and newline characters, on which both notions agree). -/
def isWS (c : Char) : Bool := c.isWhitespace

/-- Left part of Python `str.strip`. -/
def lstrip (l : Text) : Text := l.dropWhile isWS

/-- Right part of Python `str.strip`. -/
def rstrip (l : Text) : Text := (l.reverse.dropWhile isWS).reverse

/-- Python `str.strip()`. -/
def strip (l : Text) : Text := lstrip (rstrip l)

/-- Python `str.lower()` (ASCII case folding; every string compared
against in the sources is ASCII or case-free). -/
def lower (l : Text) : Text := l.map Char.toLower

/-- Python slice `t[a:b]` (with the clamping behaviour of slices). -/
def seg (t : Text) (a b : Nat) : Text := (t.drop a).take (b - a)

/-- Python `t[i:].startswith(sep)`: `sep` occurs in `t` at index `i`. -/
def occursAt (sep t : Text) (i : Nat) : Bool := sep.isPrefixOf (t.drop i)

/-- Scan downward from index `k` for the last occurrence of `sep`. -/
def rfindFrom (sep t : Text) : Nat → Option Nat
  | 0 => if occursAt sep t 0 then some 0 else none
  | k + 1 => if occursAt sep t (k + 1) then some (k + 1) else rfindFrom sep t k

/-- Python `t.rfind(sep)` (as an `Option`; `none` models `-1`). -/
def rfindLast (sep t : Text) : Option Nat := rfindFrom sep t t.length

/-- Python `sep in t` (substring containment). -/
def containsSub (sep t : Text) : Bool := (rfindLast sep t).isSome

/-- The sentence-ending separators tried, in order, by `chunk_text`. -/
def sentenceSeps : List Text :=
  [". ".toList, ".\n".toList, "! ".toList, "?\n".toList, "\n\n".toList]

/-- `chunk[int(chunk_size * 0.8):]`, the last 20% of the window
(`int(C * 0.8)` equals `4 * C / 5` for every chunk size used here). -/
def breakZone (C : Nat) (chunk : Text) : Text := chunk.drop (4 * C / 5)

/-- The sentence-boundary break position: the first separator present in
the break zone is located by `chunk.rfind(sep)` and the break index is
that position plus the separator length (`rag.py` lines 180-187). -/
def findBreakIdx (C : Nat) (chunk : Text) : Option Nat :=
  match sentenceSeps.find? (fun sep => containsSub sep (breakZone C chunk)) with
  | some sep => (rfindLast sep chunk).map (fun i => i + sep.length)
  | none => none

/-- The raw (unclamped) right boundary of the window starting at `start`:
`end = start + chunk_size`, moved back to a sentence boundary when
`end < len(text)` and a separator occurs in the break zone. -/
def windowEnd (t : Text) (C : Nat) (start : Nat) : Nat :=
  let e := start + C
  if e < t.length then
    match findBreakIdx C (seg t start e) with
    | some bi => start + bi
    | none => e
  else e

/-- The `while start < len(text)` loop of `chunk_text`, recorded as the
list of raw window spans `(start, end)` it visits; `fuel` bounds the
number of iterations and `none` reports exhaustion (the Python loop has
no such bound; termination for the default configuration is proved
below). -/
def chunkSpansAux (t : Text) (C O : Nat) : Nat → Nat → Option (List (Nat × Nat))
  | 0, _ => none
  | fuel + 1, start =>
    if start < t.length then
      let e := windowEnd t C start
      match chunkSpansAux t C O fuel (e - O) with
      | some spans => some ((start, e) :: spans)
      | none => none
    else some []

/-- The window spans visited by `chunk_text` on `t` (with enough fuel for
the default configuration). -/
def chunkSpans (t : Text) (C O : Nat) : List (Nat × Nat) :=
  (chunkSpansAux t C O (t.length + 1) 0).getD []

/-- `CHUNK_SIZE` (rag.py line 153). -/
def CHUNK_SIZE : Nat := 500

/-- `CHUNK_OVERLAP` (rag.py line 154). -/
def CHUNK_OVERLAP : Nat := 100

/-- `chunk_text(text, chunk_size, overlap)` (rag.py lines 157-194):
texts no longer than the chunk size are returned whole (or dropped when
all whitespace); otherwise each visited window is sliced, stripped, and
kept when non-empty. -/
def chunk_text (t : Text) (C : Nat := CHUNK_SIZE) (O : Nat := CHUNK_OVERLAP) :
    List Text :=
  if t.length ≤ C then (if strip t ≠ [] then [t] else [])
  else ((chunkSpans t C O).map (fun se => strip (seg t se.1 se.2))).filter
    (fun c => c ≠ [])

/-! ## Retrieval and context assembly (`rag.py` lines 265-347) -/

/-- `MIN_SIM` (config.py line 55); the float `0.50` as a rational. -/
def MIN_SIM : ℚ := 1 / 2

/-- `MAX_CONTEXT_TOKENS` (config.py line 23). -/
def MAX_CONTEXT_TOKENS : Nat := 3000

/-- One `(document, distance, metadata)` triple returned by the vector
store query in `retrieve_context`; the `section` metadata field is
`sec`, the float distance is a rational. -/
structure QueryItem where
  doc : Text
  dist : ℚ
  sec : Text
deriving DecidableEq

/-- Python `str.upper()` on the section label. -/
def upper (l : Text) : Text := l.map Char.toUpper

/-- The block `f"[{header}]\n{doc}"` built for one retrieved chunk. -/
def blockOf (e : QueryItem) : Text :=
  ('[' :: upper e.sec) ++ (']' :: '\n' :: e.doc)

/-- The filtering/budgeting loop of `retrieve_context` (rag.py lines
326-345), returning the query items actually kept: items whose
similarity `1 - dist` is below `MIN_SIM` are skipped, and the loop
`break`s at the first kept item whose block would push the running token
total over `MAX_CONTEXT_TOKENS`.  `tok` models `count_tokens`. -/
def contextPick (tok : Text → Nat) : Nat → List QueryItem → List QueryItem
  | _, [] => []
  | total, e :: rest =>
    if MIN_SIM ≤ 1 - e.dist then
      if total + tok (blockOf e) > MAX_CONTEXT_TOKENS then []
      else e :: contextPick tok (total + tok (blockOf e)) rest
    else contextPick tok total rest

/-- The two-character separator `"\n\n"`. -/
def nlnl : Text := '\n' :: '\n' :: []

/-- `"\n\n".join(context_blocks)` (rag.py line 347). -/
def joinBlocks (blocks : List Text) : Text :=
  List.intercalate nlnl blocks

/-- The string assembled by `retrieve_context` from the query results. -/
def retrieveContextText (tok : Text → Nat) (items : List QueryItem) : Text :=
  joinBlocks ((contextPick tok 0 items).map blockOf)

/-- The corpus-truncation loop of `auto_pitch` (rag.py lines 279-283):
documents are appended as `full_context + "\n\n" + doc` while the token
count of the whole candidate string stays within budget; the loop
`break`s at the first overflowing document. -/
def pitchContextAux (tok : Text → Nat) : Text → List Text → Text
  | full, [] => full
  | full, d :: rest =>
    if tok (full ++ nlnl ++ d) > MAX_CONTEXT_TOKENS then full
    else pitchContextAux tok (full ++ nlnl ++ d) rest

/-- `full_context` after the loop and the final `.strip()` (rag.py line
284). -/
def pitchContext (tok : Text → Nat) (docs : List Text) : Text :=
  strip (pitchContextAux tok [] docs)

/-! ## Router (`router.py`) -/

/-- The greeting word list of `is_greeting` (router.py lines 29-34). -/
def greetingWords : List Text :=
  ["hi".toList, "hello".toList, "hey".toList, "selam".toList,
   "merhaba".toList, "hallo".toList, "guten".toList,
   "مرحبا".toList, "السلام".toList]

/-- The membership test of `is_greeting` on the lowered, stripped text:
`any(t == g or t.startswith(g + " ") for g in greetings)`. -/
def greetingCheck (s : Text) : Bool :=
  greetingWords.any (fun g => s = g || (g ++ [' ']).isPrefixOf s)

/-- `is_greeting` (router.py lines 25-36). -/
def is_greeting (t : Text) : Bool :=
  if t = [] then false else greetingCheck (strip (lower t))

/-- `detect_language` (router.py lines 39-50). -/
def detect_language (t : Text) : Text :=
  if t = [] then "en".toList
  else
    let tl := lower t
    if ["hallo".toList, "guten".toList, "wie".toList].any
        (fun w => containsSub w tl) then "de".toList
    else if ["مرحبا".toList, "كيف".toList, "ما".toList, "هل".toList].any
        (fun w => containsSub w tl) then "ar".toList
    else "en".toList

/-- `PITCH_KEYWORDS` (router.py lines 4-13). -/
def PITCH_KEYWORDS : List Text :=
  ["pitch".toList, "investor".toList, "funding".toList, "revenue".toList,
   "business model".toList, "esg".toList, "how do you make money".toList,
   "why invest".toList]

/-- `LIGHT_ABOUT_KEYWORDS` (router.py lines 15-22). -/
def LIGHT_ABOUT_KEYWORDS : List Text :=
  ["what is this".toList, "tell me about".toList, "explain".toList,
   "anlat".toList, "özetle".toList, "nedir".toList]

/-- `detect_intent_and_depth` (router.py lines 53-68). -/
def detect_intent_and_depth (t : Text) : Text × Text × Text :=
  if t = [] then ("qa".toList, "standard".toList, "low".toList)
  else
    let tl := lower t
    if is_greeting tl then ("greeting".toList, "light".toList, "high".toList)
    else if PITCH_KEYWORDS.any (fun k => containsSub k tl) then
      ("about".toList, "pitch".toList, "high".toList)
    else if LIGHT_ABOUT_KEYWORDS.any (fun k => containsSub k tl) then
      ("about".toList, "light".toList, "high".toList)
    else ("qa".toList, "standard".toList, "low".toList)

/-- A conversation turn (role and content). -/
structure Msg where
  role : Text
  content : Text
deriving DecidableEq

/-- The route dictionary built by `default_router`; absent keys are
`none`. -/
structure RouteDecision where
  handled : Bool
  lang : Text
  intent : Text
  response : Option Text := none
  depth : Option Text := none
  confidence : Option Text := none
deriving DecidableEq

/-- `SUPPORTED_LANGUAGES` (config.py line 27). -/
def SUPPORTED_LANGUAGES : List Text := ["en".toList, "de".toList, "ar".toList]

/-- The canned greeting for English (router.py line 83). -/
def enGreeting : Text := "Hi! I’m the FundEd marketing assistant. How can I help?".toList

/-- The canned greeting for German (router.py line 84). -/
def deGreeting : Text := "Hallo! Ich bin der FundEd Marketing-Assistent. Wie kann ich helfen?".toList

/-- The canned greeting for Arabic (router.py line 85). -/
def arGreeting : Text := "مرحبًا! أنا مساعد FundEd التسويقي. كيف يمكنني المساعدة؟".toList

/-- `greetings.get(lang, greetings[DEFAULT_LANGUAGE])` for the canned
greeting table (router.py lines 82-91). -/
def greetingResponse (lang : Text) : Text :=
  if lang = "de".toList then deGreeting
  else if lang = "ar".toList then arGreeting
  else enGreeting

/-- `default_router` (router.py lines 71-100); the empty dict returned
for an empty question is `none`. -/
def default_router (question : Text) (history : List Msg) :
    Option RouteDecision :=
  if question = [] then none
  else
    let lang0 := detect_language question
    let lang := if lang0 ∈ SUPPORTED_LANGUAGES then lang0 else "en".toList
    let idc := detect_intent_and_depth question
    if idc.1 = "greeting".toList ∧ history = [] then
      some { handled := true, lang := lang, intent := idc.1,
             response := some (greetingResponse lang) }
    else
      some { handled := false, lang := lang, intent := idc.1,
             depth := some idc.2.1, confidence := some idc.2.2 }

/-! ## Dispatchers (`dispatchers/en.py`, `de.py`, `ar.py`) -/

/-- Python truthiness of the `context` argument (`if context:`). -/
def hasCtx : Option Text → Bool
  | some c => !c.isEmpty
  | none => false

/-- The English grounding system message built around the context
(en.py lines 27-38). -/
def enGroundingWithCtx (ctx : Text) : Text :=
  ("Use the following context to answer the user\x27s question. " ++
   "Answer based on whatever relevant information is available. " ++
   "Only say you lack information if the context contains nothing relevant." ++
   "\n\nContext:\n").toList ++ ctx

/-- The English no-context system message (en.py lines 39-50). -/
def enGroundingNoCtx : Text :=
  ("No specific document context was retrieved for this query. " ++
   "Answer based on your general knowledge about FundEd as an education funding platform. " ++
   "Keep your response helpful and brief.").toList

/-- The German grounding system message (de.py lines 27-33). -/
def deGroundingWithCtx (ctx : Text) : Text :=
  ("Context (for grounding, do not quote verbatim):\n").toList ++ ctx

/-- Message sequence built by the English dispatcher (en.py lines
6-55), with the loaded system prompt passed in as `sys`. -/
def dispatch_en_messages (sys q : Text) (hist : List Msg)
    (ctx : Option Text) : List Msg :=
  ({ role := "system".toList, content := sys } ::
    (if hasCtx ctx then
      [{ role := "system".toList, content := enGroundingWithCtx (ctx.getD []) }]
     else
      [{ role := "system".toList, content := enGroundingNoCtx }])) ++
    hist ++ [{ role := "user".toList, content := q }]

/-- Message sequence built by the German dispatcher (de.py lines 6-38);
no message is added when the context is falsy. -/
def dispatch_de_messages (sys q : Text) (hist : List Msg)
    (ctx : Option Text) : List Msg :=
  ({ role := "system".toList, content := sys } ::
    (if hasCtx ctx then
      [{ role := "system".toList, content := deGroundingWithCtx (ctx.getD []) }]
     else [])) ++
    hist ++ [{ role := "user".toList, content := q }]

/-- Message sequence built by the Arabic dispatcher (ar.py lines 6-25);
the context parameter is never used. -/
def dispatch_ar_messages (sys q : Text) (hist : List Msg)
    (_ctx : Option Text) : List Msg :=
  { role := "system".toList, content := sys } ::
    hist ++ [{ role := "user".toList, content := q }]

/-! ## Orchestrator (`rag.py` lines 265-297 and 380-427) -/

/-- One remote interaction: a Model Gateway chat completion, a Model
Gateway embedding request, or a vector-store operation
(count/query/get). -/
inductive Call
  | chat
  | embed
  | store
deriving DecidableEq

/-- The observable answers of the Chroma `startup_docs` collection
during one request: its `count()`, the `(doc, distance, metadata)`
triples its `query` returns, and the documents its `get` returns. -/
structure Store where
  count : Nat
  queryResults : List QueryItem
  allDocs : List Text

/-- The external world of one request: the token counter of the Model
Gateway (`count_tokens`), the vector store, the chat-completion oracle,
and the per-language `load_marketing_prompt` results. -/
structure World where
  tok : Text → Nat
  store : Store
  chatResp : List Msg → Text
  sysPrompt : Text → Text

/-- `retrieve_context` (rag.py lines 302-347) together with the remote
calls it performs: one store call for `count()`, then — when the
collection is non-empty — one Model Gateway embedding call for the
question and one store query. -/
def retrieve_context (w : World) : Text × List Call :=
  if w.store.count = 0 then ([], [Call.store])
  else (retrieveContextText w.tok w.store.queryResults,
        [Call.store, Call.embed, Call.store])

/-- The fixed reply of `auto_pitch` when nothing is indexed (rag.py
line 276). -/
def noKnowledgeMsg : Text := "No startup knowledge indexed yet.".toList

/-- The prompt text of `auto_pitch` (rag.py lines 286-290). -/
def pitchPrompt (ctx : Text) : Text :=
  ("Using the following information, write a concise and compelling startup pitch. " ++
   "Clearly explain the problem, solution, product, target customer, and competitive advantage.\n\n").toList ++ ctx

/-- The message list sent by `auto_pitch` (rag.py lines 292-295). -/
def pitchMessages (ctx : Text) : List Msg :=
  [{ role := "system".toList,
     content := "You are a professional startup pitch generator.".toList },
   { role := "user".toList, content := pitchPrompt ctx }]

/-- `auto_pitch` (rag.py lines 265-297) with its remote calls: one
store `get`, and — when documents exist — one chat completion. -/
def auto_pitch (w : World) : Text × List Call :=
  if w.store.allDocs = [] then (noKnowledgeMsg, [Call.store])
  else (w.chatResp (pitchMessages (pitchContext w.tok w.store.allDocs)),
        [Call.store, Call.chat])

/-- The literal auto-pitch trigger phrases (rag.py lines 405-410). -/
def pitchTriggers : List Text :=
  ["bu startup\x27Ä± anlat".toList, "describe the startup".toList,
   "pitch the startup".toList, "what is this startup".toList]

/-- The trigger test `question.lower().strip() in [...]` of `answer`. -/
def IsPitchTrigger (q : Text) : Prop := strip (lower q) ∈ pitchTriggers

instance (q : Text) : Decidable (IsPitchTrigger q) := by
  unfold IsPitchTrigger; infer_instance

/-- `_sanitize_history` (rag.py lines 383-385). -/
def sanitizeHistory (hist : List Msg) : List Msg :=
  hist.filter (fun m => m.role ≠ "system".toList)

/-- The `route or {}` fallback of `answer` line 394: an empty dict, on
which `route.get("handled")` is falsy and `route.get("lang", "en")` is
`"en"`. -/
def emptyRoute : RouteDecision :=
  { handled := false, lang := "en".toList, intent := [] }

/-- `dispatch_map.get(lang, dispatch_en)` followed by the selected
dispatcher (rag.py lines 416-427). -/
def dispatchMessages (w : World) (lang q : Text) (hist : List Msg)
    (ctx : Option Text) : List Msg :=
  if lang = "de".toList then
    dispatch_de_messages (w.sysPrompt "de".toList) q hist ctx
  else if lang = "ar".toList then
    dispatch_ar_messages (w.sysPrompt "ar".toList) q hist ctx
  else dispatch_en_messages (w.sysPrompt "en".toList) q hist ctx

/-- `answer(question, history)` (rag.py lines 388-427), returning the
result (or the `ValueError` message) together with the remote calls
made, in order.  The empty question is rejected before anything else
runs; the context is retrieved before the pitch-trigger and
route-handled checks. -/
def answer (w : World) (question : Text) (history : List Msg) :
    Except String Text × List Call :=
  if question = [] then
    (Except.error "question must be a non-empty string", [])
  else
    let hist := sanitizeHistory history
    let route := (default_router question hist).getD emptyRoute
    let rc := retrieve_context w
    if IsPitchTrigger question then
      let ap := auto_pitch w
      (Except.ok ap.1, rc.2 ++ ap.2)
    else if route.handled then
      (Except.ok (route.response.getD []), rc.2)
    else
      let ctxArg := if strip rc.1 ≠ [] then some rc.1 else none
      (Except.ok (w.chatResp (dispatchMessages w route.lang question hist ctxArg)),
       rc.2 ++ [Call.chat])

/-! ## Section parsing and ingestion (`rag.py` lines 21-145, 197-259)

PDF text extraction is an opaque text producer: a `FileEntry` carries
the extracted full text directly.  The two md5 digests of the source
are modelled injectively: the document-set hash is the fingerprint list
it digests, and a collection id is a tagged value (`DbId`) — distinct
tags model the fact that a 32-hex digest string is never equal to a
digest string with a `_N` or `card_` decoration. -/

/-- `SECTION_HEADERS` (config.py lines 57-68). -/
def SECTION_HEADERS : List Text :=
  ["problem".toList, "solution".toList, "product".toList,
   "target users".toList, "value proposition".toList,
   "impact tracking".toList, "revenue model".toList,
   "why funded".toList, "go-to-market".toList, "vision".toList]

/-- Python `str.splitlines()` restricted to `\n` separators (the only
line separator occurring in the texts the theorems use; `splitOn`
additionally yields a final empty line for a trailing `\n`, which no
such text has). -/
def splitLines (t : Text) : List Text := t.splitOn '\n'

/-- `"\n".join(buffer)`. -/
def joinNL (ls : List Text) : Text := List.intercalate ('\n' :: []) ls

/-- `" ".join(v)`. -/
def joinSpace (ls : List Text) : Text := List.intercalate (' ' :: []) ls

/-- One step of the header scan of `split_sections` (rag.py lines
203-211); the state is (current header, buffer, finished sections). -/
def splitSectionsStep (st : Option Text × List Text × List (Text × Text))
    (line : Text) : Option Text × List Text × List (Text × Text) :=
  if lower (strip line) ∈ SECTION_HEADERS then
    match st.1 with
    | some c =>
      if st.2.1 ≠ [] then (some (strip line), [], st.2.2 ++ [(c, joinNL st.2.1)])
      else (some (strip line), [], st.2.2)
    | none => (some (strip line), [], st.2.2)
  else (st.1, st.2.1 ++ [line], st.2.2)

/-- `split_sections` (rag.py lines 197-233): header-delimited sections,
falling back to `chunk_text` when no header matched, and sub-chunking
sections longer than `2 * CHUNK_SIZE`. -/
def split_sections (t : Text) : List (Text × Text) :=
  let fin := (splitLines t).foldl splitSectionsStep (none, [], [])
  let sections :=
    match fin.1 with
    | some c => if fin.2.1 ≠ [] then fin.2.2 ++ [(c, joinNL fin.2.1)] else fin.2.2
    | none => fin.2.2
  if sections = [] then
    (chunk_text t).enum.map
      (fun ci => (("chunk_".toList ++ (toString ci.1).toList), ci.2))
  else
    sections.flatMap (fun tc =>
      if CHUNK_SIZE * 2 < tc.2.length then
        (chunk_text tc.2).enum.map
          (fun ci => ((tc.1 ++ "_part".toList ++ (toString ci.1).toList), ci.2))
      else [tc])

/-- Ordered-dict update `sections[current] = []` of
`split_cards_sections`: reset an existing key in place, else append. -/
def dictSet (d : List (Text × List Text)) (k : Text) :
    List (Text × List Text) :=
  if d.any (fun kv => kv.1 = k) then
    d.map (fun kv => if kv.1 = k then (k, []) else kv)
  else d ++ [(k, [])]

/-- Ordered-dict update `sections[current].append(line)`. -/
def dictAppend (d : List (Text × List Text)) (k : Text) (line : Text) :
    List (Text × List Text) :=
  d.map (fun kv => if kv.1 = k then (kv.1, kv.2 ++ [line]) else kv)

/-- One line of the scan of `split_cards_sections` (rag.py lines
243-253). -/
def splitCardsStep (st : Option Text × List (Text × List Text))
    (line : Text) : Option Text × List (Text × List Text) :=
  let l := strip line
  if l = [] then st
  else if lower l ∈ SECTION_HEADERS then (some (lower l), dictSet st.2 (lower l))
  else
    match st.1 with
    | some c => (some c, dictAppend st.2 c l)
    | none => st

/-- `split_cards_sections` (rag.py lines 236-259). -/
def split_cards_sections (t : Text) : List (Text × Text) :=
  let d := ((splitLines t).foldl splitCardsStep (none, [])).2
  (d.filter (fun kv => kv.2 ≠ [])).map
    (fun kv => (kv.1, strip (joinSpace kv.2)))

/-- A PDF file of the documents directory: name, modification time,
size, and the text the PDF reader extracts from it. -/
structure FileEntry where
  name : Text
  mtime : Nat
  size : Nat
  content : Text
deriving DecidableEq

/-- `fname.lower().endswith(".pdf")`. -/
def isPdfName (n : Text) : Bool := (".pdf".toList).isSuffixOf (lower n)

/-- The data digested by `_compute_docs_hash` (rag.py lines 28-40),
with md5 treated as injective: the `(name, mtime, size)` fingerprint of
every PDF file.  (The source iterates the names in sorted order; the
directory listing is held fixed across the calls compared here, so the
order is immaterial.) -/
def fingerprint (files : List FileEntry) : List (Text × Nat × Nat) :=
  (files.filter (fun f => isPdfName f.name)).map (fun f => (f.name, f.mtime, f.size))

/-- A vector-store id, with md5 treated as injective.  A bare document
digest (`docTag`, the digest of filename + full text) is a 32-character
hex string, while a chunk id carries a `_{i}` suffix and a card id a
`card_` prefix, so the three forms are pairwise distinct — which the
distinct constructors model. -/
inductive DbId
  | docTagOnly (tag : Text × Text)
  | chunkId (tag : Text × Text) (i : Nat)
  | cardId (key : Text)
deriving DecidableEq

/-- The persistent state `ensure_index` reads and writes: the ids of
the `startup_docs` collection, the ids of the `cards_docs` collection,
and the stored index hash (none when the marker file is absent). -/
structure VState where
  colIds : List DbId
  cardIds : List DbId
  storedHash : Option (List (Text × Nat × Nat))
deriving DecidableEq

/-- One observable ingestion effect: a Model Gateway embedding call, an
`add` on the main collection, or an `upsert` on the cards collection. -/
inductive IdxEvent
  | embedCall (t : Text)
  | colAdd (id : DbId)
  | cardUpsert (id : DbId)
deriving DecidableEq

/-- Chroma `upsert` id bookkeeping: insert the id when absent. -/
def upsertId (ids : List DbId) (id : DbId) : List DbId :=
  if id ∈ ids then ids else ids ++ [id]

/-- Processing of one directory entry inside the rebuild loop of
`ensure_index` (rag.py lines 100-141): skip non-PDF names; skip a
document whose digest is in `existing` (never true — `existing` holds
decorated chunk ids); cards PDFs feed `split_cards_sections` and upsert
into the cards collection; all others feed `split_sections` and add to
the main collection, embedding each non-blank section. -/
def processFile (st : VState) (existing : List DbId) (f : FileEntry) :
    VState × List IdxEvent :=
  if ¬ isPdfName f.name then (st, [])
  else
    let tag := (f.name, f.content)
    if DbId.docTagOnly tag ∈ existing then (st, [])
    else if lower f.name = "cards.pdf".toList then
      (split_cards_sections f.content).foldl
        (fun acc s =>
          if strip s.2 = [] then acc
          else
            ({ acc.1 with cardIds := upsertId acc.1.cardIds (DbId.cardId (lower s.1)) },
             acc.2 ++ [IdxEvent.embedCall s.2,
                       IdxEvent.cardUpsert (DbId.cardId (lower s.1))]))
        (st, [])
    else
      (split_sections f.content).enum.foldl
        (fun acc si =>
          if strip si.2.2 = [] then acc
          else
            ({ acc.1 with colIds := acc.1.colIds ++ [DbId.chunkId tag si.1] },
             acc.2 ++ [IdxEvent.embedCall si.2.2,
                       IdxEvent.colAdd (DbId.chunkId tag si.1)]))
        (st, [])

/-- `ensure_index()` (rag.py lines 62-145) over a fixed directory
listing: the rebuild is skipped (third component `true`) exactly when
the stored hash equals the fresh fingerprint and the main collection is
non-empty; otherwise every file is processed against the pre-loop
`existing` id set and the fresh fingerprint is stored. -/
def ensure_index (files : List FileEntry) (st : VState) :
    VState × List IdxEvent × Bool :=
  let fp := fingerprint files
  if st.storedHash = some fp ∧ st.colIds ≠ [] then (st, [], true)
  else
    let existing := st.colIds
    let fin := files.foldl
      (fun acc f =>
        let r := processFile acc.1 existing f
        (r.1, acc.2 ++ r.2))
      (st, ([] : List IdxEvent))
    ({ fin.1 with storedHash := some fp }, fin.2, false)

/-! ## Helper lemmas -/

lemma rstrip_length_le (l : Text) : (rstrip l).length ≤ l.length := by
  unfold rstrip
  rw [List.length_reverse]
  calc (l.reverse.dropWhile isWS).length ≤ l.reverse.length :=
        (List.dropWhile_sublist isWS).length_le
    _ = l.length := List.length_reverse l

lemma strip_length_le (l : Text) : (strip l).length ≤ l.length :=
  le_trans ((List.dropWhile_sublist isWS).length_le) (rstrip_length_le l)

lemma contextPick_sum_le (tok : Text → Nat) :
    ∀ (items : List QueryItem) (total : Nat), total ≤ MAX_CONTEXT_TOKENS →
      total + ((contextPick tok total items).map (fun e => tok (blockOf e))).sum ≤
        MAX_CONTEXT_TOKENS := by
  intro items
  induction items with
  | nil => intro total h; simpa [contextPick]
  | cons e rest ih =>
    intro total h
    unfold contextPick
    by_cases hsim : MIN_SIM ≤ 1 - e.dist
    · simp only [hsim, if_true]
      by_cases hover : total + tok (blockOf e) > MAX_CONTEXT_TOKENS
      · simpa [hover]
      · have hle : total + tok (blockOf e) ≤ MAX_CONTEXT_TOKENS := by omega
        have := ih (total + tok (blockOf e)) hle
        simp only [hover, if_false, List.map_cons, List.sum_cons]
        omega
    · simp only [hsim, if_false]
      exact ih total h

lemma contextPick_sublist (tok : Text → Nat) :
    ∀ (items : List QueryItem) (total : Nat),
      List.Sublist (contextPick tok total items) items := by
  intro items
  induction items with
  | nil => intro total; simp [contextPick]
  | cons e rest ih =>
    intro total
    unfold contextPick
    by_cases hsim : MIN_SIM ≤ 1 - e.dist
    · simp only [hsim, if_true]
      by_cases hover : total + tok (blockOf e) > MAX_CONTEXT_TOKENS
      · simp [hover]
      · simpa [hover] using (ih (total + tok (blockOf e))).cons₂ e
    · simp only [hsim, if_false]
      exact (ih total).cons e

lemma contextPick_mem_sim (tok : Text → Nat) :
    ∀ (items : List QueryItem) (total : Nat) (e : QueryItem),
      e ∈ contextPick tok total items → MIN_SIM ≤ 1 - e.dist := by
  intro items
  induction items with
  | nil => intro total e h; simp [contextPick] at h
  | cons a rest ih =>
    intro total e h
    unfold contextPick at h
    by_cases hsim : MIN_SIM ≤ 1 - a.dist
    · simp only [hsim, if_true] at h
      by_cases hover : total + tok (blockOf a) > MAX_CONTEXT_TOKENS
      · simp [hover] at h
      · simp only [hover, if_false, List.mem_cons] at h
        rcases h with rfl | h
        · exact hsim
        · exact ih _ e h
    · simp only [hsim, if_false] at h
      exact ih _ e h

lemma pitchContextAux_le (tok : Text → Nat) :
    ∀ (docs : List Text) (full : Text), tok full ≤ MAX_CONTEXT_TOKENS →
      tok (pitchContextAux tok full docs) ≤ MAX_CONTEXT_TOKENS := by
  intro docs
  induction docs with
  | nil => intro full h; simpa [pitchContextAux]
  | cons d rest ih =>
    intro full h
    unfold pitchContextAux
    split
    · exact h
    · rename_i hnot
      exact ih _ (by omega)

/-! ## Claim theorems -/

/-- C9: `answer` with an empty (the only malformed question expressible
over typed strings) question returns the `ValueError` immediately, with
no remote call of any kind — no embedding call, no chat call, and no
vector-store operation; the model of `answer` touches no persistent
state at all. -/
theorem c9_empty_question_rejected_before_any_remote_call
    (w : World) (hist : List Msg) :
    answer w [] hist = (Except.error "question must be a non-empty string", []) := by
  rfl

/-- C7 (amended): with a non-empty context, the English and German
dispatchers send the system prompt, then a grounding system message
that contains the context, then the history, then the user question —
but the Arabic dispatcher ignores the context entirely and sends only
the system prompt, the history, and the question. -/
theorem c7_dispatch_message_order (sys q : Text) (hist : List Msg)
    (ctx : Text) (h : ctx ≠ []) :
    dispatch_en_messages sys q hist (some ctx) =
      { role := "system".toList, content := sys } ::
      { role := "system".toList, content := enGroundingWithCtx ctx } ::
      (hist ++ [{ role := "user".toList, content := q }]) ∧
    ctx <:+ enGroundingWithCtx ctx ∧
    dispatch_de_messages sys q hist (some ctx) =
      { role := "system".toList, content := sys } ::
      { role := "system".toList, content := deGroundingWithCtx ctx } ::
      (hist ++ [{ role := "user".toList, content := q }]) ∧
    ctx <:+ deGroundingWithCtx ctx ∧
    dispatch_ar_messages sys q hist (some ctx) =
      { role := "system".toList, content := sys } ::
      (hist ++ [{ role := "user".toList, content := q }]) := by
  obtain ⟨c, cs, rfl⟩ : ∃ c cs, ctx = c :: cs := by
    cases ctx with
    | nil => exact absurd rfl h
    | cons c cs => exact ⟨c, cs, rfl⟩
  refine ⟨?_, ?_, ?_, ?_, ?_⟩
  · simp [dispatch_en_messages, hasCtx]
  · exact List.suffix_append _ _
  · simp [dispatch_de_messages, hasCtx]
  · exact List.suffix_append _ _
  · simp [dispatch_ar_messages]

/-- C7 (witness): the amended dispatcher-order theorem instantiated at
concrete inputs. -/
theorem c7_dispatch_message_order_witness :
    dispatch_ar_messages ("S".toList) ("q".toList) [] (some ("ZQX".toList)) =
      { role := "system".toList, content := "S".toList } ::
      ([] ++ [{ role := "user".toList, content := "q".toList }]) :=
  (c7_dispatch_message_order ("S".toList) ("q".toList) [] ("ZQX".toList)
    (by decide)).2.2.2.2

/-- C7 (counterexample): the Arabic dispatcher, handed a non-empty
context, emits a message list in which the context appears nowhere — so
the claimed grounding system message is absent for `ar`. -/
theorem c7_counterexample_ar_ignores_context :
    hasCtx (some ("ZQX".toList)) = true ∧
    dispatch_ar_messages ("S".toList) ("q".toList) [] (some ("ZQX".toList)) =
      [{ role := "system".toList, content := "S".toList },
       { role := "user".toList, content := "q".toList }] ∧
    (dispatch_ar_messages ("S".toList) ("q".toList) [] (some ("ZQX".toList))).all
      (fun m => !containsSub ("ZQX".toList) m.content) = true := by
  decide

/-- C2 (amended): the retrieval loop keeps the *sum* of the per-block
token counts within `MAX_CONTEXT_TOKENS` and `break`s at the first
eligible chunk that would overflow (the `"\n\n"` separators between the
blocks are not counted, so the assembled string itself can measure
above the ceiling — see the counterexample); `auto_pitch`'s corpus
context, whose budget check covers the separators, stays within the
ceiling as a whole string, and its loop also stops at the first
overflowing document. -/
theorem c2_token_budget :
    (∀ (tok : Text → Nat) (items : List QueryItem),
      ((contextPick tok 0 items).map (fun e => tok (blockOf e))).sum ≤
        MAX_CONTEXT_TOKENS) ∧
    (∀ (tok : Text → Nat) (total : Nat) (e : QueryItem) (rest : List QueryItem),
      MIN_SIM ≤ 1 - e.dist → MAX_CONTEXT_TOKENS < total + tok (blockOf e) →
      contextPick tok total (e :: rest) = []) ∧
    (∀ (tok : Text → Nat) (docs : List Text),
      (∀ l : Text, tok (strip l) ≤ tok l) → tok [] ≤ MAX_CONTEXT_TOKENS →
      tok (pitchContext tok docs) ≤ MAX_CONTEXT_TOKENS) ∧
    (∀ (tok : Text → Nat) (full d : Text) (rest : List Text),
      MAX_CONTEXT_TOKENS < tok (full ++ nlnl ++ d) →
      pitchContextAux tok full (d :: rest) = full) := by
  refine ⟨?_, ?_, ?_, ?_⟩
  · intro tok items
    simpa using contextPick_sum_le tok items 0 (Nat.zero_le _)
  · intro tok total e rest hsim hover
    unfold contextPick
    simp [hsim, hover]
  · intro tok docs hstrip hempty
    exact le_trans (hstrip _) (pitchContextAux_le tok docs [] hempty)
  · intro tok full d rest hover
    unfold pitchContextAux
    split
    · rfl
    · rename_i hnot
      rw [List.append_assoc] at hover

/-- C2 (witness): the amended token-budget theorem instantiated at
concrete token counters and inputs. -/
theorem c2_token_budget_witness :
    ((contextPick List.length 0 []).map (fun e => (blockOf e).length)).sum ≤
      MAX_CONTEXT_TOKENS ∧
    contextPick (fun _ => 4000) 0 [{ doc := [], dist := 0, sec := [] }] = [] ∧
    List.length (pitchContext List.length []) ≤ MAX_CONTEXT_TOKENS ∧
    pitchContextAux (fun _ => 4000) [] [[]] = [] :=
  ⟨c2_token_budget.1 List.length [],
   c2_token_budget.2.1 (fun _ => 4000) 0 { doc := [], dist := 0, sec := [] } []
     (by norm_num [MIN_SIM]) (by decide),
   c2_token_budget.2.2.1 List.length [] (fun l => strip_length_le l) (by decide),
   c2_token_budget.2.2.2 (fun _ => 4000) [] [] [] (by decide)⟩

/-- A retrieved chunk of 1497 characters with a blank section label
and zero distance: its block measures 1500 tokens under the
one-token-per-character counter. -/
def ex2A : QueryItem := { doc := List.replicate 1497 'a', dist := 0, sec := [] }

/-- A second such chunk. -/
def ex2B : QueryItem := { doc := List.replicate 1497 'b', dist := 0, sec := [] }

/-- Two documents whose blocks measure 1500 tokens each, so both pass
the budget check (1500 + 1500 = 3000 ≤ 3000), yet the joined string has
two uncounted separator characters on top. -/
def ex2Items : List QueryItem := [ex2A, ex2B]

lemma ex2_simA : MIN_SIM ≤ 1 - ex2A.dist := by norm_num [MIN_SIM, ex2A]

lemma ex2_simB : MIN_SIM ≤ 1 - ex2B.dist := by norm_num [MIN_SIM, ex2B]

lemma ex2_lenA : List.length (blockOf ex2A) = 1500 := by decide

lemma ex2_lenB : List.length (blockOf ex2B) = 1500 := by decide

lemma ex2_pick : contextPick List.length 0 ex2Items = [ex2A, ex2B] := by
  simp only [ex2Items, contextPick, ex2_lenA, ex2_lenB,
    if_pos ex2_simA, if_pos ex2_simB, MAX_CONTEXT_TOKENS]
  norm_num

/-- C2 (counterexample): the context string assembled by
`retrieve_context` measures 3002 tokens under a one-token-per-character
`count_tokens`, exceeding `MAX_CONTEXT_TOKENS = 3000`: the source only
bounds the sum of the per-block counts and never counts the `"\n\n"`
separators it inserts between blocks. -/
theorem c2_counterexample_joined_context_exceeds_budget :
    MAX_CONTEXT_TOKENS < (retrieveContextText List.length ex2Items).length := by
  rw [retrieveContextText, ex2_pick]
  simp only [List.map_cons, List.map_nil, joinBlocks, List.intercalate,
    List.intersperse, List.flatten, List.append_nil, List.length_append,
    ex2_lenA, ex2_lenB, MAX_CONTEXT_TOKENS]
  norm_num [nlnl]

/-- The 0.9-similarity candidate of the spec's example (distance 0.1). -/
def ex3A : QueryItem := { doc := "alpha".toList, dist := 1 - 9/10, sec := "s".toList }

/-- The 0.4-similarity candidate of the spec's example (distance 0.6). -/
def ex3B : QueryItem := { doc := "beta".toList, dist := 1 - 4/10, sec := "s".toList }

/-- The 0.6-similarity candidate of the spec's example (distance 0.4). -/
def ex3C : QueryItem := { doc := "gamma".toList, dist := 1 - 6/10, sec := "s".toList }

/-- The example query results in the order given by the claim. -/
def ex3Items : List QueryItem := [ex3A, ex3B, ex3C]

lemma ex3_simA : MIN_SIM ≤ 1 - ex3A.dist := by norm_num [MIN_SIM, ex3A]

lemma ex3_simB : ¬ MIN_SIM ≤ 1 - ex3B.dist := by norm_num [MIN_SIM, ex3B]

lemma ex3_simC : MIN_SIM ≤ 1 - ex3C.dist := by norm_num [MIN_SIM, ex3C]

lemma ex3_lenA : List.length (blockOf ex3A) = 9 := by decide

lemma ex3_lenC : List.length (blockOf ex3C) = 9 := by decide

lemma ex3_pick : contextPick List.length 0 ex3Items = [ex3A, ex3C] := by
  simp only [ex3Items, contextPick, ex3_lenA, ex3_lenC,
    if_pos ex3_simA, if_neg ex3_simB, if_pos ex3_simC, MAX_CONTEXT_TOKENS]
  norm_num

/-- C3: `retrieve_context` never keeps a chunk whose similarity
`1 - distance` is below `MIN_SIM = 0.50`; when the store returns its
results ranked by ascending distance (its contract), the kept chunks
are in descending similarity order; and on the example results with
similarities [0.9, 0.4, 0.6] exactly the 0.9 and 0.6 chunks survive,
in that order. -/
theorem c3_similarity_floor :
    (∀ (tok : Text → Nat) (items : List QueryItem) (e : QueryItem),
      e ∈ contextPick tok 0 items → MIN_SIM ≤ 1 - e.dist) ∧
    (∀ (tok : Text → Nat) (items : List QueryItem),
      items.Pairwise (fun u v => u.dist ≤ v.dist) →
      (contextPick tok 0 items).Pairwise (fun u v => 1 - v.dist ≤ 1 - u.dist)) ∧
    (contextPick List.length 0 ex3Items = [ex3A, ex3C] ∧
      1 - ex3A.dist = 9/10 ∧ 1 - ex3C.dist = 6/10) := by
  refine ⟨?_, ?_, ex3_pick, by norm_num [ex3A], by norm_num [ex3C]⟩
  · intro tok items e h
    exact contextPick_mem_sim tok items 0 e h
  · intro tok items h
    exact ((h.sublist (contextPick_sublist tok items 0)).imp
      (fun hle => by exact sub_le_sub_left hle 1))

/-- C3 (witness): the similarity-floor theorem instantiated at the
example results (and, for the ordering part, at their ranked
permutation). -/
theorem c3_similarity_floor_witness :
    MIN_SIM ≤ 1 - ex3A.dist ∧
    (contextPick List.length 0 [ex3A, ex3C, ex3B]).Pairwise
      (fun u v => 1 - v.dist ≤ 1 - u.dist) :=
  ⟨c3_similarity_floor.1 List.length ex3Items ex3A (by rw [ex3_pick]; simp),
   c3_similarity_floor.2.1 List.length [ex3A, ex3C, ex3B]
     (by norm_num [List.pairwise_cons, ex3A, ex3B, ex3C])⟩

/-! ## Chunking lemmas (for C4, C5, C8)

The loop of `chunk_text` is analysed through the span list recorded by
`chunkSpansAux`: each visited window is `[start, end)` with
`end = windowEnd`, and the next start is `end - overlap`.  For the
default configuration every break index lies in the last 20% of a full
window, so `402 ≤ end - start ≤ 500` and the loop advances by at least
302 characters per iteration. -/

lemma rfindFrom_sound (sep t : Text) :
    ∀ (k m : Nat), rfindFrom sep t k = some m →
      occursAt sep t m = true ∧ m ≤ k := by
  intro k
  induction k with
  | zero =>
    intro m h
    unfold rfindFrom at h
    split at h
    · cases h; exact ⟨by assumption, le_refl _⟩
    · cases h
  | succ k ih =>
    intro m h
    unfold rfindFrom at h
    split at h
    · cases h; exact ⟨by assumption, le_refl _⟩
    · obtain ⟨h1, h2⟩ := ih m h
      exact ⟨h1, le_trans h2 (Nat.le_succ k)⟩

lemma rfindFrom_exists (sep t : Text) :
    ∀ (k j : Nat), j ≤ k → occursAt sep t j = true →
      ∃ m, rfindFrom sep t k = some m ∧ j ≤ m := by
  intro k
  induction k with
  | zero =>
    intro j hj hocc
    have : j = 0 := Nat.le_zero.mp hj
    subst this
    exact ⟨0, by unfold rfindFrom; simp [hocc], le_refl 0⟩
  | succ k ih =>
    intro j hj hocc
    unfold rfindFrom
    by_cases hk : occursAt sep t (k + 1) = true
    · exact ⟨k + 1, by simp [hk], hj⟩
    · have hj' : j ≤ k := by
        rcases Nat.lt_or_ge j (k + 1) with h | h
        · omega
        · exfalso
          have : j = k + 1 := by omega
          subst this
          exact hk hocc
      obtain ⟨m, h1, h2⟩ := ih j hj' hocc
      exact ⟨m, by simp [hk, h1], h2⟩

lemma occursAt_le (sep t : Text) (m : Nat) (hsep : sep ≠ [])
    (h : occursAt sep t m = true) : m + sep.length ≤ t.length := by
  unfold occursAt at h
  have hpre := List.isPrefixOf_iff_prefix.mp h
  have hlen := hpre.length_le
  rw [List.length_drop] at hlen
  have hm : m ≤ t.length := by
    by_contra hc
    push_neg at hc
    rw [List.drop_eq_nil_of_le (le_of_lt hc)] at hpre
    exact hsep (List.prefix_nil.mp hpre)
  have hpos : 1 ≤ sep.length := List.length_pos.mpr hsep
  omega

lemma containsSub_occurs (sep z : Text) (h : containsSub sep z = true) :
    ∃ q, occursAt sep z q = true := by
  unfold containsSub rfindLast at h
  obtain ⟨m, hm⟩ := Option.isSome_iff_exists.mp h
  exact ⟨m, (rfindFrom_sound sep z z.length m hm).1⟩

lemma seg_length_of_le (t : Text) (a b : Nat) (hab : a ≤ b)
    (hb : b ≤ t.length) : (seg t a b).length = b - a := by
  simp only [seg, List.length_take, List.length_drop]
  omega

lemma seg_clamp (t : Text) (a b : Nat) :
    seg t a b = seg t a (min b t.length) := by
  unfold seg
  rw [List.take_eq_take]
  rw [List.length_drop]
  omega

lemma seg_split (t : Text) {a m b : Nat} (h1 : a ≤ m) (h2 : m ≤ b) :
    seg t a b = seg t a m ++ seg t m b := by
  unfold seg
  have hb : b - a = (m - a) + (b - m) := by omega
  rw [hb, List.take_add, List.drop_drop]
  have hm : a + (m - a) = m := by omega
  rw [hm]

lemma findBreakIdx_bounds (chunk : Text) (hlen : chunk.length = 500)
    {bi : Nat} (h : findBreakIdx 500 chunk = some bi) :
    402 ≤ bi ∧ bi ≤ 500 := by
  unfold findBreakIdx at h
  cases hfind : sentenceSeps.find?
      (fun sep => containsSub sep (breakZone 500 chunk)) with
  | none => rw [hfind] at h; cases h
  | some sep =>
    rw [hfind] at h
    obtain ⟨m, hm, hbi⟩ := Option.map_eq_some'.mp h
    have hp : containsSub sep (breakZone 500 chunk) = true := by
      simpa using List.find?_some hfind
    have hmem : sep ∈ sentenceSeps := List.mem_of_find?_eq_some hfind
    have hsep2 : sep.length = 2 := by
      simp only [sentenceSeps, List.mem_cons, List.not_mem_nil, or_false] at hmem
      rcases hmem with rfl | rfl | rfl | rfl | rfl <;> rfl
    have hsepne : sep ≠ [] := by
      intro hc
      rw [hc] at hsep2
      simp at hsep2
    obtain ⟨q, hq⟩ := containsSub_occurs _ _ hp
    have hocc : occursAt sep chunk (400 + q) = true := by
      unfold occursAt at hq ⊢
      unfold breakZone at hq
      rw [show (4 * 500 / 5 : Nat) = 400 from rfl] at hq
      rwa [List.drop_drop] at hq
    have hjle : 400 + q + 2 ≤ 500 := by
      have := occursAt_le sep chunk (400 + q) hsepne hocc
      omega
    have hlast : rfindLast sep chunk = rfindFrom sep chunk 500 := by
      unfold rfindLast
      rw [hlen]
    obtain ⟨m', hm', hge⟩ :=
      rfindFrom_exists sep chunk 500 (400 + q) (by omega) hocc
    rw [hlast, hm'] at hm
    have hinj : m' = m := Option.some.inj hm
    subst hinj
    have hmle := occursAt_le sep chunk m' hsepne
      (rfindFrom_sound sep chunk 500 m' hm').1
    omega

lemma seg_full_length (t : Text) (s : Nat) (h : s + 500 < t.length) :
    (seg t s (s + 500)).length = 500 := by
  rw [seg_length_of_le t s (s + 500) (by omega) (by omega)]
  omega

lemma windowEnd_bounds (t : Text) (s : Nat) :
    s + 402 ≤ windowEnd t 500 s ∧ windowEnd t 500 s ≤ s + 500 ∧
      (windowEnd t 500 s ≠ s + 500 → windowEnd t 500 s < t.length) := by
  unfold windowEnd
  by_cases hlt : s + 500 < t.length
  · simp only [hlt, if_true]
    cases hfb : findBreakIdx 500 (seg t s (s + 500)) with
    | none =>
      show s + 402 ≤ s + 500 ∧ s + 500 ≤ s + 500 ∧
        (s + 500 ≠ s + 500 → s + 500 < t.length)
      exact ⟨by omega, le_refl _, fun hne => absurd rfl hne⟩
    | some bi =>
      obtain ⟨h1, h2⟩ := findBreakIdx_bounds _ (seg_full_length t s hlt) hfb
      show s + 402 ≤ s + bi ∧ s + bi ≤ s + 500 ∧
        (s + bi ≠ s + 500 → s + bi < t.length)
      exact ⟨by omega, by omega, fun _ => by omega⟩
  · simp only [hlt, if_false]
    exact ⟨by omega, le_refl _, fun hne => absurd rfl hne⟩

/-- The loop invariant of `chunk_text`: `spans` is exactly the list of
windows the loop visits starting from `s`, each window ending at
`windowEnd` and the next starting `overlap` characters earlier. -/
def SpanChain (t : Text) : Nat → List (Nat × Nat) → Prop
  | s, [] => t.length ≤ s
  | s, sp :: rest =>
    sp.1 = s ∧ s < t.length ∧ sp.2 = windowEnd t 500 s ∧
      SpanChain t (sp.2 - 100) rest

lemma chunkSpansAux_sound (t : Text) :
    ∀ (fuel start : Nat) (spans : List (Nat × Nat)),
      chunkSpansAux t 500 100 fuel start = some spans →
      SpanChain t start spans := by
  intro fuel
  induction fuel with
  | zero => intro start spans h; cases h
  | succ fuel ih =>
    intro start spans h
    unfold chunkSpansAux at h
    by_cases hlt : start < t.length
    · simp only [hlt, if_true] at h
      cases hrec : chunkSpansAux t 500 100 fuel (windowEnd t 500 start - 100) with
      | none => rw [hrec] at h; cases h
      | some spans' =>
        rw [hrec] at h
        cases h
        exact ⟨rfl, hlt, rfl, ih _ _ hrec⟩
    · simp only [hlt, if_false] at h
      cases h
      exact Nat.le_of_not_lt hlt

lemma chunkSpansAux_isSome (t : Text) :
    ∀ (fuel start : Nat), t.length ≤ start + fuel →
      (chunkSpansAux t 500 100 (fuel + 1) start).isSome = true := by
  intro fuel
  induction fuel with
  | zero =>
    intro start h
    have hge : ¬ start < t.length := by omega
    unfold chunkSpansAux
    simp [hge]
  | succ fuel ih =>
    intro start h
    unfold chunkSpansAux
    by_cases hlt : start < t.length
    · simp only [hlt, if_true]
      have hadv := (windowEnd_bounds t start).1
      have hrec := ih (windowEnd t 500 start - 100) (by omega)
      obtain ⟨spans', hs⟩ := Option.isSome_iff_exists.mp hrec
      rw [hs]
      rfl
    · simp [hlt]

lemma chunkSpans_eq_some (t : Text) :
    chunkSpansAux t 500 100 (t.length + 1) 0 = some (chunkSpans t 500 100) := by
  have h := chunkSpansAux_isSome t t.length 0 (by omega)
  obtain ⟨spans, hs⟩ := Option.isSome_iff_exists.mp h
  rw [chunkSpans, hs]
  rfl

lemma spanChain_chunkSpans (t : Text) : SpanChain t 0 (chunkSpans t 500 100) :=
  chunkSpansAux_sound t (t.length + 1) 0 _ (chunkSpans_eq_some t)

lemma spanChain_adv (t : Text) :
    ∀ (s : Nat) (spans : List (Nat × Nat)), SpanChain t s spans →
      List.Chain' (fun u v : Nat × Nat => u.1 + 300 ≤ v.1) spans := by
  intro s spans
  induction spans generalizing s with
  | nil => intro _; exact List.chain'_nil
  | cons sp rest ih =>
    intro h
    obtain ⟨h1, h2, h3, h4⟩ := h
    cases rest with
    | nil => exact List.chain'_singleton sp
    | cons sp' rest' =>
      rw [List.chain'_cons]
      refine ⟨?_, ih _ h4⟩
      obtain ⟨h1', h2', h3', h4'⟩ := h4
      have hge := (windowEnd_bounds t s).1
      omega

lemma spanChain_overlap (t : Text) :
    ∀ (s : Nat) (spans : List (Nat × Nat)), SpanChain t s spans →
      List.Chain' (fun u v : Nat × Nat =>
        v.1 = u.2 - 100 ∧
        (seg t v.1 (min u.2 t.length)).length = min 100 (t.length - v.1) ∧
        seg t v.1 (min u.2 t.length) <:+ seg t u.1 u.2 ∧
        seg t v.1 (min u.2 t.length) <+: seg t v.1 v.2) spans := by
  intro s spans
  induction spans generalizing s with
  | nil => intro _; exact List.chain'_nil
  | cons sp rest ih =>
    intro h
    obtain ⟨a, e⟩ := sp
    obtain ⟨h1, h2, h3, h4⟩ := h
    cases rest with
    | nil => exact List.chain'_singleton _
    | cons sp' rest' =>
      rw [List.chain'_cons]
      refine ⟨?_, ih _ h4⟩
      obtain ⟨a', e'⟩ := sp'
      obtain ⟨h1', h2', h3', h4'⟩ := h4
      simp only at h1 h1' h2' h3 h3' ⊢
      obtain ⟨he1, he2, he3⟩ := windowEnd_bounds t s
      rw [← h3] at he1 he2 he3
      obtain ⟨hf1, hf2, hf3⟩ := windowEnd_bounds t (e - 100)
      rw [← h3'] at hf1 hf2 hf3
      subst h1 h1'
      refine ⟨rfl, ?_, ?_, ?_⟩
      · rcases Nat.le_total e t.length with hle | hgt
        · rw [Nat.min_eq_left hle,
            seg_length_of_le t (e - 100) e (by omega) hle]
          omega
        · have hee : e = a + 500 := by
            by_contra hc
            have := he3 hc
            omega
          rw [Nat.min_eq_right hgt,
            seg_length_of_le t (e - 100) t.length (by omega) (le_refl _)]
          omega
      · rcases Nat.le_total e t.length with hle | hgt
        · rw [Nat.min_eq_left hle]
          exact ⟨seg t a (e - 100), (seg_split t (by omega) (by omega)).symm⟩
        · rw [Nat.min_eq_right hgt]
          refine ⟨seg t a (e - 100), ?_⟩
          rw [← seg_split t (a := a) (m := e - 100) (b := t.length)
            (by omega) (by omega)]
          rw [seg_clamp t a e, Nat.min_eq_right hgt]
      · rcases Nat.le_total e t.length with hle | hgt
        · rw [Nat.min_eq_left hle]
          refine ⟨seg t e (min e' t.length), ?_⟩
          rw [← seg_split t (a := e - 100) (m := e) (b := min e' t.length)
            (by omega) (by omega)]
          exact (seg_clamp t (e - 100) e').symm
        · have hlen_le_e' : t.length ≤ e' := by omega
          rw [Nat.min_eq_right hgt, seg_clamp t (e - 100) e',
            Nat.min_eq_right hlen_le_e']

lemma spanChain_cover (t : Text) :
    ∀ (s : Nat) (spans : List (Nat × Nat)), SpanChain t s spans →
      ∀ p, s ≤ p → p < t.length →
        ∃ sp ∈ spans, sp.1 ≤ p ∧ p < min sp.2 t.length := by
  intro s spans
  induction spans generalizing s with
  | nil =>
    intro h p hp1 hp2
    exfalso
    have : t.length ≤ s := h
    omega
  | cons sp rest ih =>
    intro h p hp1 hp2
    obtain ⟨a, e⟩ := sp
    obtain ⟨h1, h2, h3, h4⟩ := h
    simp only at h1 h3
    subst h1
    by_cases hcase : p < min e t.length
    · exact ⟨(a, e), List.mem_cons_self _ _, hp1, hcase⟩
    · push_neg at hcase
      have he1 := (windowEnd_bounds t a).1
      rw [← h3] at he1
      have hle : e ≤ t.length := by
        by_contra hc
        push_neg at hc
        rw [Nat.min_eq_right (le_of_lt hc)] at hcase
        omega
      rw [Nat.min_eq_left hle] at hcase
      obtain ⟨sp', hmem, hh⟩ := ih (e - 100) h4 p (by omega) hp2
      exact ⟨sp', List.mem_cons_of_mem _ hmem, hh⟩

/-- C8: for the default configuration (chunk size 500, overlap 100) the
window loop of `chunk_text` terminates within `len + 1` iterations on
every input, producing a finite span list, and each iteration advances
the window start by at least `0.8·C − O = 300` characters (in fact by
at least 302). -/
theorem c8_chunk_text_terminates (t : Text) :
    ∃ spans, chunkSpansAux t 500 100 (t.length + 1) 0 = some spans ∧
      chunkSpans t 500 100 = spans ∧
      List.Chain' (fun u v : Nat × Nat => u.1 + 300 ≤ v.1) spans :=
  ⟨chunkSpans t 500 100, chunkSpans_eq_some t, rfl,
    spanChain_adv t 0 _ (spanChain_chunkSpans t)⟩

/-- C4 (amended): for the default configuration, each consecutive pair
of windows visited by `chunk_text` satisfies `start_{i+1} = end_i − O`,
and the two *raw* window slices share exactly
`min(O, len − start_{i+1})` characters — the shared text is a suffix of
window `i` and a prefix of window `i+1` — which is the full overlap `O`
except when the text remaining at `start_{i+1}` is shorter than `O`.
The *stored* chunks are the whitespace-stripped slices
(`chunks.append(chunk.strip())`), so their visible overlap can be
smaller (see the counterexample). -/
theorem c4_raw_window_overlap (t : Text) :
    List.Chain' (fun u v : Nat × Nat =>
      v.1 = u.2 - 100 ∧
      (seg t v.1 (min u.2 t.length)).length = min 100 (t.length - v.1) ∧
      seg t v.1 (min u.2 t.length) <:+ seg t u.1 u.2 ∧
      seg t v.1 (min u.2 t.length) <+: seg t v.1 v.2)
      (chunkSpans t 500 100) :=
  spanChain_overlap t 0 _ (spanChain_chunkSpans t)

/-- The largest `k` such that the last `k` characters of `a` equal the
first `k` characters of `b` — the character overlap between chunk `a`'s
tail and chunk `b`'s head. -/
def commonOverlap (a b : Text) : Nat :=
  ((List.range (min a.length b.length + 1)).filter
    (fun k => decide (a.drop (a.length - k) = b.take k))).foldr max 0

/-- The counterexample text for C4: 400 letters, 100 spaces, 100
letters (600 characters, so the default chunker takes windows
`[0, 500)` and `[400, 900)`). -/
def ex4 : Text :=
  List.replicate 400 'a' ++ List.replicate 100 ' ' ++ List.replicate 100 'b'

/-- C4 (counterexample): on `ex4` the default chunker visits windows
`[0,500)` and `[400,900)` — the raw overlap region `[400,500)` is all
spaces — and stores the stripped chunks `'a'*400` and `'b'*100`, whose
tail/head character overlap is 0 < O = 100, even though the second
chunk starts with 200 ≥ O characters of text remaining, so the final
chunk exception does not apply. -/
theorem c4_counterexample_strip_loses_overlap :
    chunkSpans ex4 500 100 = [(0, 500), (400, 900)] ∧
    chunk_text ex4 500 100 =
      [List.replicate 400 'a', List.replicate 100 'b'] ∧
    commonOverlap (List.replicate 400 'a') (List.replicate 100 'b') = 0 ∧
    ex4.length = 600 ∧ 100 ≤ ex4.length - 400 := by
  refine ⟨by decide, by decide, by decide, by decide, by decide⟩

/-- C5 (amended): for any text longer than the default chunk size,
every character position of the input is covered by at least one *raw*
window visited by `chunk_text` — the windows leave no gaps.  The stored
chunks are the whitespace-stripped window slices, so characters
stripped at window boundaries can be absent from every stored chunk
(see the counterexample). -/
theorem c5_window_coverage (t : Text) (_hlong : 500 < t.length)
    (p : Nat) (hp : p < t.length) :
    ∃ sp ∈ chunkSpans t 500 100, sp.1 ≤ p ∧ p < min sp.2 t.length :=
  spanChain_cover t 0 _ (spanChain_chunkSpans t) p (Nat.zero_le p) hp

/-- C5 (witness): window coverage instantiated on a 501-character text
at position 0. -/
theorem c5_window_coverage_witness :
    ∃ sp ∈ chunkSpans (List.replicate 501 'a') 500 100,
      sp.1 ≤ 0 ∧ 0 < min sp.2 (List.replicate 501 'a').length :=
  c5_window_coverage (List.replicate 501 'a') (by decide) 0 (by decide)

/-- The counterexample text for C5: 550 letters then 50 spaces. -/
def ex5 : Text := List.replicate 550 'a' ++ List.replicate 50 ' '

/-- C5 (counterexample): `ex5` is longer than the chunk size and
contains a space character, yet no chunk produced by `chunk_text`
contains any space — the trailing whitespace of the second window is
removed by `chunk.strip()`, so those input characters occur in no
chunk. -/
theorem c5_counterexample_stripped_chars_lost :
    500 < ex5.length ∧ (' ' ∈ ex5) ∧
    chunk_text ex5 500 100 =
      [List.replicate 500 'a', List.replicate 150 'a'] ∧
    (∀ c ∈ chunk_text ex5 500 100, ' ' ∉ c) := by
  refine ⟨by decide, by decide, by decide, by decide⟩

/-! ## Router and orchestrator lemmas (for C1, C10) -/

lemma toLower_toLower (c : Char) : c.toLower.toLower = c.toLower := by
  unfold Char.toLower
  dsimp only
  split
  · rename_i h
    obtain ⟨h1, h2⟩ := h
    set n := c.toNat with hn
    interval_cases n <;> decide
  · rfl

lemma lower_lower (t : Text) : lower (lower t) = lower t := by
  unfold lower
  rw [List.map_map]
  exact List.map_congr_left (fun c _ => toLower_toLower c)

lemma is_greeting_lower (q : Text) : is_greeting (lower q) = is_greeting q := by
  unfold is_greeting
  by_cases hq : q = []
  · subst hq; rfl
  · have hlq : lower q ≠ [] := by simpa [lower] using hq
    rw [if_neg hq, if_neg hlq, lower_lower]

lemma is_greeting_ne_nil {q : Text} (h : is_greeting q = true) : q ≠ [] := by
  intro hc
  subst hc
  exact absurd h (by decide)

lemma greeting_not_trigger {q : Text} (h : is_greeting q = true) :
    ¬ IsPitchTrigger q := by
  intro hc
  unfold IsPitchTrigger at hc
  have hqne := is_greeting_ne_nil h
  unfold is_greeting at h
  rw [if_neg hqne] at h
  simp only [pitchTriggers, List.mem_cons, List.not_mem_nil, or_false] at hc
  rcases hc with hc | hc | hc | hc <;> rw [hc] at h <;> exact absurd h (by decide)

lemma greetingResponse_ne (lang : Text) : greetingResponse lang ≠ [] := by
  unfold greetingResponse
  by_cases h1 : lang = "de".toList
  · rw [if_pos h1]; decide
  · rw [if_neg h1]
    by_cases h2 : lang = "ar".toList
    · rw [if_pos h2]; decide
    · rw [if_neg h2]; decide

lemma router_greeting (q : Text) (hq : is_greeting q = true) :
    ∃ lang, default_router q [] =
      some { handled := true, lang := lang, intent := "greeting".toList,
             response := some (greetingResponse lang) } ∧
      greetingResponse lang ≠ [] := by
  have hqne := is_greeting_ne_nil hq
  have hint : detect_intent_and_depth q =
      ("greeting".toList, "light".toList, "high".toList) := by
    unfold detect_intent_and_depth
    rw [if_neg hqne]
    have hg : is_greeting (lower q) = true := by rw [is_greeting_lower]; exact hq
    simp [hg]
  refine ⟨if detect_language q ∈ SUPPORTED_LANGUAGES then detect_language q
    else "en".toList, ?_, ?_⟩
  · unfold default_router
    rw [if_neg hqne]
    simp [hint]
  · exact greetingResponse_ne _

lemma retrieve_context_calls (w : World) :
    (retrieve_context w).2 = (if w.store.count = 0 then [Call.store]
      else [Call.store, Call.embed, Call.store]) := by
  unfold retrieve_context
  by_cases h : w.store.count = 0 <;> simp [h]

lemma answer_handled (w : World) (q : Text) (hqne : q ≠ [])
    (hnp : ¬ IsPitchTrigger q) (d : RouteDecision)
    (hd : default_router q [] = some d) (hh : d.handled = true) :
    answer w q [] = (Except.ok (d.response.getD []), (retrieve_context w).2) := by
  unfold answer
  rw [if_neg hqne]
  have hsan : sanitizeHistory ([] : List Msg) = [] := rfl
  simp only [hsan, hd, Option.getD_some, if_neg hnp, hh, if_true]

/-- Shared derivation for the greeting short-circuit: for any greeting
question with empty history, the router fully handles the turn with a
non-empty canned response, `answer` returns that response making no
chat call — but it still runs `retrieve_context` first, so it performs
one embedding call whenever the main collection is non-empty. -/
lemma greeting_answer (w : World) (q : Text) (hq : is_greeting q = true) :
    ∃ d, default_router q [] = some d ∧ d.handled = true ∧
      (∃ resp, d.response = some resp ∧ resp ≠ [] ∧
        (answer w q []).1 = Except.ok resp) ∧
      Call.chat ∉ (answer w q []).2 ∧
      (answer w q []).2 = (if w.store.count = 0 then [Call.store]
        else [Call.store, Call.embed, Call.store]) := by
  obtain ⟨lang, hd, hne⟩ := router_greeting q hq
  have hans := answer_handled w q (is_greeting_ne_nil hq)
    (greeting_not_trigger hq) _ hd rfl
  refine ⟨_, hd, rfl, ⟨greetingResponse lang, rfl, hne, ?_⟩, ?_, ?_⟩
  · rw [hans]
    rfl
  · rw [hans, retrieve_context_calls]
    by_cases h : w.store.count = 0 <;> simp [h]
  · rw [hans, retrieve_context_calls]

/-- C1 (amended): for every greeting question with empty history,
`default_router` fully handles the turn (`handled = true`) with a
non-empty canned per-language response, and `answer` returns exactly
that canned response without any Model Gateway *chat* call — but
`answer` computes `retrieve_context` before checking the route, so it
performs one Model Gateway *embedding* call whenever the main
collection is non-empty (no gateway call happens only when the
collection is empty). -/
theorem c1_greeting_short_circuit (w : World) (q : Text)
    (hq : is_greeting q = true) :
    ∃ d, default_router q [] = some d ∧ d.handled = true ∧
      (∃ resp, d.response = some resp ∧ resp ≠ [] ∧
        (answer w q []).1 = Except.ok resp) ∧
      Call.chat ∉ (answer w q []).2 ∧
      (answer w q []).2 = (if w.store.count = 0 then [Call.store]
        else [Call.store, Call.embed, Call.store]) :=
  greeting_answer w q hq

/-- A world whose main collection holds one document. -/
def w1 : World :=
  { tok := List.length,
    store := { count := 1, queryResults := [], allDocs := [] },
    chatResp := fun _ => [],
    sysPrompt := fun _ => [] }

/-- C1 (witness): the amended greeting short-circuit instantiated at
the question "hi" against a non-empty collection. -/
theorem c1_greeting_short_circuit_witness :
    ∃ d, default_router ("hi".toList) [] = some d ∧ d.handled = true ∧
      (∃ resp, d.response = some resp ∧ resp ≠ [] ∧
        (answer w1 ("hi".toList) []).1 = Except.ok resp) ∧
      Call.chat ∉ (answer w1 ("hi".toList) []).2 ∧
      (answer w1 ("hi".toList) []).2 = (if w1.store.count = 0 then [Call.store]
        else [Call.store, Call.embed, Call.store]) :=
  c1_greeting_short_circuit w1 ("hi".toList) (by decide)

/-- C1 (counterexample): with a non-empty collection, answering the
greeting "hi" on empty history performs a Model Gateway embedding call
(inside `retrieve_context`, which `answer` runs before the
route-handled check), so the claim that no Model Gateway call at all is
made is false. -/
theorem c1_counterexample_embedding_call_on_greeting :
    (default_router ("hi".toList) []).map (fun d => d.handled) = some true ∧
    (answer w1 ("hi".toList) []).2 = [Call.store, Call.embed, Call.store] ∧
    Call.embed ∈ (answer w1 ("hi".toList) []).2 := by
  refine ⟨by decide, by decide, by decide⟩

lemma rstrip_append (a b : Text) :
    rstrip (a ++ b) = if rstrip b = [] then rstrip a else a ++ rstrip b := by
  unfold rstrip
  rw [List.reverse_append, List.dropWhile_append]
  by_cases h : (b.reverse.dropWhile isWS).isEmpty = true
  · rw [if_pos h, if_pos (by rw [List.isEmpty_iff.mp h]; rfl)]
  · rw [if_neg h, if_neg (fun hc => h (List.isEmpty_iff.mpr
      (by rw [← List.reverse_reverse (b.reverse.dropWhile isWS), hc]; rfl)))]
    rw [List.reverse_append, List.reverse_reverse]

lemma rstrip_isPrefix (l : Text) : rstrip l <+: l := by
  have h := List.dropWhile_suffix (l := l.reverse) isWS
  have h2 := List.reverse_prefix.mpr h
  rwa [List.reverse_reverse] at h2

lemma greetingCheck_of (g : Text) (hmem : g ∈ greetingWords) (s : Text)
    (h : s = g ∨ (g ++ [' ']) <+: s) : greetingCheck s = true := by
  unfold greetingCheck
  rw [List.any_eq_true]
  refine ⟨g, hmem, ?_⟩
  rcases h with h | h
  · simp [h]
  · simp [List.isPrefixOf_iff_prefix.mpr h]

lemma greet_starts (g : Text) (hmem : g ∈ greetingWords)
    (hlow : lower g = g) (hstrip : strip g = g)
    (c : Char) (gt : Text) (hg : g = c :: gt) (hc : isWS c = false) :
    ∀ rest, is_greeting (g ++ ' ' :: rest) = true := by
  intro rest
  unfold is_greeting
  have hne : g ++ ' ' :: rest ≠ [] := by subst hg; simp
  rw [if_neg hne]
  have hsp : Char.toLower ' ' = ' ' := rfl
  have hlw : lower (g ++ ' ' :: rest) = g ++ ' ' :: lower rest := by
    unfold lower at hlow ⊢
    rw [List.map_append, hlow, List.map_cons, hsp]
  rw [hlw]
  unfold strip
  rw [rstrip_append]
  by_cases hb : rstrip (' ' :: lower rest) = []
  · rw [if_pos hb]
    unfold strip at hstrip
    rw [hstrip]
    exact greetingCheck_of g hmem g (Or.inl rfl)
  · rw [if_neg hb]
    obtain ⟨r'', hr⟩ : ∃ r'', rstrip (' ' :: lower rest) = ' ' :: r'' := by
      have hpre := rstrip_isPrefix (' ' :: lower rest)
      cases hrs : rstrip (' ' :: lower rest) with
      | nil => exact absurd hrs hb
      | cons x xs =>
        rw [hrs] at hpre
        obtain ⟨u, hu⟩ := hpre
        rw [List.cons_append] at hu
        exact ⟨xs, by rw [(List.cons.injEq _ _ _ _).mp hu |>.1]⟩
    rw [hr]
    subst hg
    have hls : lstrip ((c :: gt) ++ ' ' :: r'') = (c :: gt) ++ ' ' :: r'' := by
      unfold lstrip
      rw [List.cons_append, List.dropWhile_cons, hc]
      rfl
    rw [hls]
    apply greetingCheck_of _ hmem
    right
    refine ⟨r'', ?_⟩
    simp

/-- C10: every question of the form "greeting word, space, anything"
is classified as a greeting by `is_greeting` regardless of what
follows, so with empty history `default_router` fully handles the turn
and `answer` returns the canned greeting without any chat call — the
substantive remainder of the question is never dispatched to a
language dispatcher. -/
theorem c10_greeting_word_swallows_question (w : World) (g : Text)
    (hg : g ∈ greetingWords) (rest : Text) :
    is_greeting (g ++ ' ' :: rest) = true ∧
    ∃ d, default_router (g ++ ' ' :: rest) [] = some d ∧ d.handled = true ∧
      (∃ resp, d.response = some resp ∧ resp ≠ [] ∧
        (answer w (g ++ ' ' :: rest) []).1 = Except.ok resp) ∧
      Call.chat ∉ (answer w (g ++ ' ' :: rest) []).2 := by
  have hig : is_greeting (g ++ ' ' :: rest) = true := by
    have hmem := hg
    simp only [greetingWords, List.mem_cons, List.not_mem_nil, or_false] at hg
    rcases hg with rfl | rfl | rfl | rfl | rfl | rfl | rfl | rfl | rfl <;>
      exact greet_starts _ hmem (by decide) (by decide) _ _ rfl (by decide) rest
  obtain ⟨d, h1, h2, h3, h4, h5⟩ := greeting_answer w (g ++ ' ' :: rest) hig
  exact ⟨hig, d, h1, h2, h3, h4⟩

/-- C10 (witness): the greeting-prefix theorem instantiated at the
question "hi how do I reset it". -/
theorem c10_greeting_word_swallows_question_witness :
    is_greeting ("hi".toList ++ ' ' :: "how do I reset it".toList) = true ∧
    ∃ d, default_router ("hi".toList ++ ' ' :: "how do I reset it".toList) [] =
        some d ∧ d.handled = true ∧
      (∃ resp, d.response = some resp ∧ resp ≠ [] ∧
        (answer w1 ("hi".toList ++ ' ' :: "how do I reset it".toList) []).1 =
          Except.ok resp) ∧
      Call.chat ∉ (answer w1 ("hi".toList ++ ' ' :: "how do I reset it".toList) []).2 :=
  c10_greeting_word_swallows_question w1 ("hi".toList) (by decide)
    ("how do I reset it".toList)

/-! ## Ingestion lemmas (for C6) -/

lemma ensure_index_hash (files : List FileEntry) (st : VState) :
    (ensure_index files st).1.storedHash = some (fingerprint files) := by
  unfold ensure_index
  dsimp only
  split
  · rename_i h
    exact h.1
  · rfl

/-- C6 (amended): rebuilding is skipped exactly when the stored hash
equals the fresh fingerprint and the *main* collection is non-empty;
consequently a second `ensure_index()` call over an unchanged document
set performs no embedding calls or upserts *provided the first call
left the main collection non-empty*.  When the document set populates
only the cards collection (e.g. it consists of `cards.pdf` alone), the
main collection stays empty, the skip condition never holds, and every
call re-embeds and re-upserts the cards (see the counterexample). -/
theorem c6_index_idempotence_and_skip_condition :
    (∀ (files : List FileEntry) (st : VState),
      (ensure_index files st).1.colIds ≠ [] →
      ensure_index files (ensure_index files st).1 =
        ((ensure_index files st).1, [], true)) ∧
    (∀ (files : List FileEntry) (st : VState),
      (ensure_index files st).2.2 = true ↔
        st.storedHash = some (fingerprint files) ∧ st.colIds ≠ []) := by
  constructor
  · intro files st h
    have hh := ensure_index_hash files st
    set st1 := (ensure_index files st).1 with hst1
    show ensure_index files st1 = (st1, [], true)
    unfold ensure_index
    rw [if_pos ⟨hh, h⟩]
  · intro files st
    unfold ensure_index
    dsimp only
    split
    · rename_i h
      simp [h]
    · rename_i h
      simp [h]

/-- The state of a fresh deployment: empty collections, no stored
hash. -/
def st0 : VState := { colIds := [], cardIds := [], storedHash := none }

/-- A document set consisting only of the hand-curated cards PDF, whose
extracted text holds one canonical section. -/
def cardsFile : FileEntry :=
  { name := "cards.pdf".toList, mtime := 1, size := 1,
    content := "problem\nWe fix X.".toList }

/-- C6 (counterexample): with a document set consisting of `cards.pdf`
alone, the first `ensure_index` call embeds and upserts the card — into
the cards collection, leaving the main collection empty — and the
second call, although the document-set hash is unchanged and stored,
performs the very same embedding call and upsert again: the skip
condition requires the *main* collection to be non-empty, and the
per-document skip compares the bare document digest against decorated
chunk ids, which never match. -/
theorem c6_counterexample_cards_reembedded_every_call :
    (ensure_index [cardsFile] st0).2.1 =
      [IdxEvent.embedCall ("We fix X.".toList),
       IdxEvent.cardUpsert (DbId.cardId ("problem".toList))] ∧
    (ensure_index [cardsFile] st0).1.storedHash =
      some (fingerprint [cardsFile]) ∧
    (ensure_index [cardsFile] (ensure_index [cardsFile] st0).1).2.1 =
      [IdxEvent.embedCall ("We fix X.".toList),
       IdxEvent.cardUpsert (DbId.cardId ("problem".toList))] ∧
    (ensure_index [cardsFile] (ensure_index [cardsFile] st0).1).2.1 ≠ [] := by
  refine ⟨by decide, by decide, by decide, by decide⟩

/-- A state whose main collection already holds an id and whose stored
hash matches the empty document directory. -/
def stW : VState :=
  { colIds := [DbId.cardId []], cardIds := [], storedHash := some [] }

/-- C6 (witness): the idempotence half of the amended theorem
instantiated at an empty directory and a populated main collection. -/
theorem c6_index_idempotence_witness :
    ensure_index [] (ensure_index [] stW).1 = ((ensure_index [] stW).1, [], true) :=
  c6_index_idempotence_and_skip_condition.1 [] stW (by decide)

end FundedAI
